import Mathlib

/-!
Verification of the transfer-telegram-to-whatsapp execution core.

This file shallowly embeds the delivery-execution core of the repository:

* `src/models/WhatsAppMessage.js` — the per-job status state machine
  (`statusTransitions`, `updateStatus`, `markAsProcessing`, `markAsSent`,
  `markAsFailed`, `markAsSkipped`);
* `src/models/ProgressRecord.js` — the progress-ledger entry
  (`ProgressRecord.create`, `canRetry`, the business-rule validation) and the
  mutable summary (`ProgressSummary.create`, `updateFromRecord`,
  `getCompletionPercentage`, `getSuccessRate`, its business-rule validation);
* `src/services/ProgressTracker.js` — the ledger write path
  (`recordProgress`) and the resume index (`isMessageSuccessful`,
  `isMessageFailed`, latest-record-per-id semantics of the in-memory map);
* `src/services/WhatsAppImporter.js` — the delivery loop
  (`_processMessages`, `_processSingleMessage`, `_getMessagesToProcess`,
  `executeImport`) and `src/models/CLIConfig.js`'s `RuntimeState` rate limiter
  (`canSendMessage`, `getRequiredWaitTime`, `updateRateLimit`);
* `src/cli/commands/ExecuteCommand.js` — the resume pipeline
  (`_syncPlanWithProgress` and the `shouldResume` computation).

Modelling conventions.  JavaScript exceptions are `Except String`; a thrown
exception leaves the receiver unchanged because every source method checks
before mutating, which the `Except` value semantics capture.  Message and
record identifiers (UUID strings in the source) are abstracted to `Nat`.
Wall-clock reads (`Date.now()`) are an explicit `now : Nat` parameter in
milliseconds; no claim below depends on the concrete clock values stored in
`timestamp`/`sentAt` fields.  Fields of the source objects that do not affect
the modelled control flow (text payload, media path, chat id, sender, the
AJV schema checks that only restate the Lean types, and the file-system
plumbing) are elided; every field that any modelled function reads or writes
is present.
-/

/-- Message processing status, the `status` enum of `WhatsAppMessage.js`. -/
inductive MsgStatus
  | pending
  | processing
  | sent
  | failed
  | skipped
deriving DecidableEq, Repr

/-- Transfer job, the mutable state of one `WhatsAppMessage`.  Payload fields
(content, media path, chat id, timestamps of the original record) are elided:
the execution core never branches on them. -/
structure WMessage where
  id : Nat
  telegramId : Nat
  status : MsgStatus
  errorMessage : Option String
  sentAt : Option Nat
deriving DecidableEq, Repr

/-- The allowed-transition table `WhatsAppMessage.statusTransitions`. -/
def statusTransitions : MsgStatus → List MsgStatus
  | MsgStatus.pending => [MsgStatus.processing]
  | MsgStatus.processing => [MsgStatus.sent, MsgStatus.failed, MsgStatus.skipped]
  | MsgStatus.sent => []
  | MsgStatus.failed => [MsgStatus.processing]
  | MsgStatus.skipped => []

/-- Source `WhatsAppMessage.canTransitionTo`. -/
def canTransitionTo (m : WMessage) (newStatus : MsgStatus) : Bool :=
  decide (newStatus ∈ statusTransitions m.status)

/-- JavaScript truthiness of an optional string: `null` and `''` are falsy. -/
def optTruthy : Option String → Bool
  | none => false
  | some s => decide (s ≠ "")

/-- Source `WhatsAppMessage.updateStatus`.  Checks the transition table first and
throws without mutating on an invalid transition; otherwise sets the status,
maintains `errorMessage` exactly as the source (`newStatus === 'failed' &&
errorMessage` sets it, any non-failed target clears it, a falsy error on a
failed target leaves it), and stamps `sentAt` on `sent`.  The trailing
`this.validate()` re-check of the source (JSON-schema plus file-system
lookups) is elided: it cannot fail on the states reached in this model. -/
def updateStatus (now : Nat) (m : WMessage) (newStatus : MsgStatus)
    (errorMessage : Option String) : Except String WMessage :=
  if canTransitionTo m newStatus = false then
    Except.error "Invalid status transition"
  else
    let m1 := { m with status := newStatus }
    let m2 :=
      if newStatus = MsgStatus.failed then
        if optTruthy errorMessage then { m1 with errorMessage := errorMessage } else m1
      else { m1 with errorMessage := none }
    let m3 := if newStatus = MsgStatus.sent then { m2 with sentAt := some now } else m2
    Except.ok m3

/-- Source `WhatsAppMessage.markAsProcessing`. -/
def markAsProcessing (now : Nat) (m : WMessage) : Except String WMessage :=
  updateStatus now m MsgStatus.processing none

/-- Source `WhatsAppMessage.markAsSent`. -/
def markAsSent (now : Nat) (m : WMessage) : Except String WMessage :=
  updateStatus now m MsgStatus.sent none

/-- Source `WhatsAppMessage.markAsFailed`. -/
def markAsFailed (now : Nat) (m : WMessage) (errorMessage : String) :
    Except String WMessage :=
  updateStatus now m MsgStatus.failed (some errorMessage)

/-- Source `WhatsAppMessage.markAsSkipped`. -/
def markAsSkipped (now : Nat) (m : WMessage) : Except String WMessage :=
  updateStatus now m MsgStatus.skipped none

/-- Ledger-entry status, the `status` enum of `ProgressRecord.js`
(schema: `['sent', 'failed']`). -/
inductive RecStatus
  | sent
  | failed
deriving DecidableEq, Repr

/-- Progress-ledger entry, one `ProgressRecord` (one line of
`progress.jsonl`). -/
structure ProgressRecord where
  messageId : Nat
  telegramId : Nat
  status : RecStatus
  timestamp : Nat
  errorMessage : Option String
  retryCount : Nat
  sentMessageId : Option Nat
deriving DecidableEq, Repr

/-- Source `ProgressRecord._validateBusinessRules` (the checks beyond the AJV
schema, whose type and enum constraints the Lean types already enforce; the
`retryCount < 0` check is vacuous over `Nat` as it is over the schema's
`minimum: 0`). -/
def validateRecordData (now : Nat) (r : ProgressRecord) : Except String Unit :=
  if r.status = RecStatus.failed ∧ optTruthy r.errorMessage = false then
    Except.error "Failed status requires an error message"
  else if r.status = RecStatus.sent ∧ optTruthy r.errorMessage = true then
    Except.error "Sent status should not have an error message"
  else if r.timestamp > now + 60000 then
    Except.error "Timestamp cannot be in the future"
  else if r.retryCount > 10 then
    Except.error "Retry count cannot exceed 10"
  else
    Except.ok ()

/-- Source `ProgressRecord.create`: builds a fresh record stamped with the current
time, with `retryCount` set to `1` when the status is `failed` and `0`
otherwise, then validates it (`ProgressRecord.fromData`). -/
def ProgressRecord.create (now : Nat) (messageId telegramId : Nat)
    (status : RecStatus) (errorMessage : Option String)
    (sentMessageId : Option Nat) : Except String ProgressRecord :=
  let r : ProgressRecord :=
    { messageId := messageId
      telegramId := telegramId
      status := status
      timestamp := now
      errorMessage := errorMessage
      retryCount := if status = RecStatus.failed then 1 else 0
      sentMessageId := sentMessageId }
  match validateRecordData now r with
  | Except.error e => Except.error e
  | Except.ok _ => Except.ok r

/-- Source `ProgressRecord.canRetry`: a failed record with fewer than 10 retries. -/
def ProgressRecord.canRetry (r : ProgressRecord) : Bool :=
  decide (r.status = RecStatus.failed ∧ r.retryCount < 10)

/-- Run status of the summary, the `status` enum of `ProgressSummary`. -/
inductive SumStatus
  | running
  | paused
  | completed
  | failed
deriving DecidableEq, Repr

/-- Progress summary, the mutable snapshot `ProgressSummary`
(`progress.json`).  The `planPath`, `startedAt` and `lastUpdated` fields are
elided: no modelled control flow reads them. -/
structure ProgressSummary where
  totalMessages : Nat
  processedMessages : Nat
  successfulMessages : Nat
  failedMessages : Nat
  currentPosition : Nat
  status : SumStatus
deriving DecidableEq, Repr

/-- Source `ProgressSummary.create`: a fresh running summary with zero counters. -/
def ProgressSummary.create (totalMessages : Nat) : ProgressSummary :=
  { totalMessages := totalMessages
    processedMessages := 0
    successfulMessages := 0
    failedMessages := 0
    currentPosition := 0
    status := SumStatus.running }

/-- Source `ProgressSummary.updateFromRecord`: bumps the counter matching the
record's status, recomputes `processedMessages` as the sum, and flips the
summary to `completed` as soon as `processedMessages >= totalMessages`
(else to `failed` when every processed message failed). -/
def ProgressSummary.updateFromRecord (s : ProgressSummary) (r : ProgressRecord) :
    ProgressSummary :=
  let s1 :=
    match r.status with
    | RecStatus.sent => { s with successfulMessages := s.successfulMessages + 1 }
    | RecStatus.failed => { s with failedMessages := s.failedMessages + 1 }
  let s2 := { s1 with processedMessages := s1.successfulMessages + s1.failedMessages }
  if s2.processedMessages ≥ s2.totalMessages then
    { s2 with status := SumStatus.completed, currentPosition := s2.totalMessages }
  else if s2.failedMessages > 0 ∧ s2.successfulMessages = 0 then
    { s2 with status := SumStatus.failed }
  else
    s2

/-- Source `ProgressSummary._validateBusinessRules` (the pure count and status
checks; the timestamp-ordering check is elided with the time fields, and the
`currentPosition < 0` half of the range check is vacuous over `Nat`). -/
def validateSummaryData (s : ProgressSummary) : Except String Unit :=
  if s.processedMessages ≠ s.successfulMessages + s.failedMessages then
    Except.error "Processed messages must equal successful plus failed"
  else if s.processedMessages > s.totalMessages then
    Except.error "Processed messages cannot exceed total messages"
  else if s.currentPosition > s.totalMessages then
    Except.error "Current position must be between 0 and total messages"
  else if s.status = SumStatus.completed ∧ s.currentPosition ≠ s.totalMessages then
    Except.error "Completed status requires current position to equal total messages"
  else if s.status = SumStatus.completed ∧ s.processedMessages ≠ s.totalMessages then
    Except.error "Completed status requires all messages to be processed"
  else
    Except.ok ()

/-- Source `ProgressSummary.getCompletionPercentage`:
`Math.round((processed / total) * 100)` guarded by `total === 0 → 100`.
Mathlib's `round` on `ℚ` rounds halves up, exactly as `Math.round`. -/
def ProgressSummary.getCompletionPercentage (s : ProgressSummary) : ℤ :=
  if s.totalMessages = 0 then 100
  else round ((s.processedMessages : ℚ) / (s.totalMessages : ℚ) * 100)

/-- Source `ProgressSummary.getSuccessRate`:
`Math.round((successful / processed) * 100)` guarded by `processed === 0 → 100`. -/
def ProgressSummary.getSuccessRate (s : ProgressSummary) : ℤ :=
  if s.processedMessages = 0 then 100
  else round ((s.successfulMessages : ℚ) / (s.processedMessages : ℚ) * 100)

/-- Folding a sequence of ledger entries into a summary, one
`updateFromRecord` per entry (the summary side of repeated
`ProgressTracker.recordProgress` calls). -/
def applyRecords (recs : List ProgressRecord) (s : ProgressSummary) : ProgressSummary :=
  recs.foldl ProgressSummary.updateFromRecord s

/-- Progress-tracker state: the append-only `progress.jsonl` log (in append
order) together with the running summary.  The tracker's in-memory
`progressRecords` map is derived: it holds, per message id, the latest log
entry (replay in order, last write wins), which `latestRecord` computes. -/
structure TrackerState where
  records : List ProgressRecord
  summary : ProgressSummary
deriving DecidableEq, Repr

/-- Latest ledger entry for a message id: the in-memory
`progressRecords.get(messageId)` after replaying the log in order. -/
def latestRecord (log : List ProgressRecord) (id : Nat) : Option ProgressRecord :=
  log.reverse.find? fun r => decide (r.messageId = id)

/-- Source `ProgressTracker.isMessageSuccessful`. -/
def isMessageSuccessful (log : List ProgressRecord) (id : Nat) : Bool :=
  match latestRecord log id with
  | some r => decide (r.status = RecStatus.sent)
  | none => false

/-- Source `ProgressTracker.isMessageFailed`. -/
def isMessageFailed (log : List ProgressRecord) (id : Nat) : Bool :=
  match latestRecord log id with
  | some r => decide (r.status = RecStatus.failed)
  | none => false

/-- Source `ProgressTracker.recordProgress`: validates the record, appends it to the
log (and the in-memory map), and updates the summary via `updateFromRecord`.
Validation failures are wrapped and rethrown before anything is written. -/
def recordProgress (now : Nat) (tr : TrackerState) (r : ProgressRecord) :
    Except String TrackerState :=
  match validateRecordData now r with
  | Except.error e => Except.error ("Failed to record progress: " ++ e)
  | Except.ok _ =>
      Except.ok
        { records := tr.records ++ [r]
          summary := tr.summary.updateFromRecord r }

/-- Outcome of one channel-adapter send call (`chat.sendMessage` via the five
`_send*Message` helpers).  The source does not classify errors: every thrown
error, whether a per-job rejection or a connection-level failure, reaches the
same `catch` in `_processSingleMessage`.  The two error constructors record
the specification's taxonomy so that claims about connection-scoped errors
can be stated; the embedded code treats them identically, as the source does. -/
inductive SendOutcome
  | success (whatsappMessageId : Nat)
  | jobError (message : String)
  | connError (message : String)
deriving DecidableEq, Repr

/-- Return value of `_processSingleMessage` (the `messageResult` object).
The source's `skipped` field is never set by any return path and is elided. -/
structure MsgResult where
  success : Bool
  error : Option String := none
  whatsappMessageId : Option Nat := none
deriving DecidableEq, Repr

/-- JavaScript `x || null` on an optional string: an empty string is falsy
and collapses to `null`. -/
def jsOrNull : Option String → Option String
  | some s => if s = "" then none else some s
  | none => none

/-- Source `WhatsAppImporter._processSingleMessage`.  In dry-run mode it returns a
synthetic success without touching the message or the channel.  Otherwise it
marks the message `processing`, performs the send dispatched on the message
kind (abstracted by `outcome`), and marks `sent` on success; any error thrown
inside the `try` — including a connection-level one, and including an invalid
`markAsProcessing` transition — is caught by the single `catch`, which marks
the message `failed` and returns a non-success result.  Only a throw from
that `markAsFailed` itself escapes to the caller. -/
def processSingleMessage (now : Nat) (dryRun : Bool) (outcome : SendOutcome)
    (m : WMessage) : Except String (MsgResult × WMessage) :=
  if dryRun then
    Except.ok ({ success := true }, m)
  else
    match markAsProcessing now m with
    | Except.error e =>
        match markAsFailed now m e with
        | Except.error e2 => Except.error e2
        | Except.ok m2 => Except.ok ({ success := false, error := some e }, m2)
    | Except.ok m1 =>
        match outcome with
        | SendOutcome.success waId =>
            match markAsSent now m1 with
            | Except.error e =>
                match markAsFailed now m1 e with
                | Except.error e2 => Except.error e2
                | Except.ok m2 => Except.ok ({ success := false, error := some e }, m2)
            | Except.ok m2 =>
                Except.ok ({ success := true, whatsappMessageId := some waId }, m2)
        | SendOutcome.jobError msg =>
            match markAsFailed now m1 msg with
            | Except.error e2 => Except.error e2
            | Except.ok m2 => Except.ok ({ success := false, error := some msg }, m2)
        | SendOutcome.connError msg =>
            match markAsFailed now m1 msg with
            | Except.error e2 => Except.error e2
            | Except.ok m2 => Except.ok ({ success := false, error := some msg }, m2)

/-- Run status of the in-memory `result` object of `_processMessages`. -/
inductive RunStatus
  | running
  | paused
  | completed
  | completedWithErrors
deriving DecidableEq, Repr

/-- The `result` accumulator of `_processMessages`. -/
structure RunResult where
  status : RunStatus
  totalMessages : Nat
  processedMessages : Nat := 0
  successfulMessages : Nat := 0
  failedMessages : Nat := 0
  skippedMessages : Nat := 0
  errors : List (Nat × Option String) := []
deriving DecidableEq, Repr

/-- The `catch` block of the per-message loop body in `_processMessages`:
counts the message as failed and processed, then records a `failed` ledger
entry built from the caught error message.  A throw from that
`ProgressRecord.create` or `recordProgress` escapes the loop with the tracker
unchanged (validation precedes every write). -/
def catchPath (now : Nat) (e : String) (m : WMessage) (res : RunResult)
    (tr : TrackerState) (rlCount : Nat) :
    Except (String × TrackerState) (RunResult × TrackerState × Nat) :=
  let res1 :=
    { res with
        failedMessages := res.failedMessages + 1
        processedMessages := res.processedMessages + 1
        errors := res.errors ++ [(m.id, some e)] }
  match ProgressRecord.create now m.id m.telegramId RecStatus.failed (some e) none with
  | Except.error e2 => Except.error (e2, tr)
  | Except.ok rec =>
      match recordProgress now tr rec with
      | Except.error e2 => Except.error (e2, tr)
      | Except.ok tr1 => Except.ok (res1, tr1, rlCount)

/-- One iteration of the `_processMessages` loop body.  The opening
`_waitForRateLimit()` call only sleeps — `getRequiredWaitTime` plus a random
delay, with no consultation of `canSendMessage` and no thrown condition — so
it has no control-flow effect here; its timing behaviour is modelled by
`paceStep` below.  The `try` path processes the message, bumps the counters
(`skipped` is unreachable), records a ledger entry whose status mirrors
`messageResult.success`, and on success bumps the rate-limiter counter
(`updateRateLimit`); any throw after the counter bumps re-enters `catchPath`,
double-counting the message exactly as the source does. -/
def processOne (now : Nat) (dryRun : Bool) (outcome : SendOutcome) (m : WMessage)
    (res : RunResult) (tr : TrackerState) (rlCount : Nat) :
    Except (String × TrackerState) (RunResult × TrackerState × Nat) :=
  match processSingleMessage now dryRun outcome m with
  | Except.error e => catchPath now e m res tr rlCount
  | Except.ok (mr, _) =>
      let res1 := { res with processedMessages := res.processedMessages + 1 }
      let res2 :=
        if mr.success then
          { res1 with successfulMessages := res1.successfulMessages + 1 }
        else
          { res1 with
              failedMessages := res1.failedMessages + 1
              errors := res1.errors ++ [(m.id, mr.error)] }
      match ProgressRecord.create now m.id m.telegramId
          (if mr.success then RecStatus.sent else RecStatus.failed)
          (jsOrNull mr.error) mr.whatsappMessageId with
      | Except.error e => catchPath now e m res2 tr rlCount
      | Except.ok rec =>
          match recordProgress now tr rec with
          | Except.error e => catchPath now e m res2 tr rlCount
          | Except.ok tr1 =>
              let rl1 := if mr.success then rlCount + 1 else rlCount
              Except.ok (res2, tr1, rl1)

/-- The `for` loop of `_processMessages` over the selected messages.  The
channel adapter is abstracted as a function from message id to send outcome;
`rlCount` threads the rate limiter's `messageCount`.  The `isPaused` flag is
only ever set by an external `pause()` call and stays `false` for the runs
modelled here, so the pause break is omitted. -/
def processLoop (now : Nat) (dryRun : Bool) (channel : Nat → SendOutcome) :
    List WMessage → RunResult → TrackerState → Nat →
    Except (String × TrackerState) (RunResult × TrackerState × Nat)
  | [], res, tr, rl => Except.ok (res, tr, rl)
  | m :: rest, res, tr, rl =>
      match processOne now dryRun (channel m.id) m res tr rl with
      | Except.error e => Except.error e
      | Except.ok (res1, tr1, rl1) => processLoop now dryRun channel rest res1 tr1 rl1

/-- Source `WhatsAppImporter._processMessages`: runs the loop from a fresh `running`
result over the selected messages, then sets the final status to `completed`
or `completed_with_errors` exactly when every message was processed. -/
def processMessages (now : Nat) (dryRun : Bool) (channel : Nat → SendOutcome)
    (msgs : List WMessage) (tr : TrackerState) (rl : Nat) :
    Except (String × TrackerState) (RunResult × TrackerState × Nat) :=
  let res0 : RunResult := { status := RunStatus.running, totalMessages := msgs.length }
  match processLoop now dryRun channel msgs res0 tr rl with
  | Except.error e => Except.error e
  | Except.ok (res, tr1, rl1) =>
      let resF :=
        if res.processedMessages = res.totalMessages then
          if res.failedMessages = 0 then { res with status := RunStatus.completed }
          else { res with status := RunStatus.completedWithErrors }
        else res
      Except.ok (resF, tr1, rl1)

/-- Source `WhatsAppImporter._getMessagesToProcess`: with `resume` it returns
`plan.getUnprocessedMessages()`, the messages whose status is `pending`
(`ImportPlan.js`); otherwise it resets every non-pending message to a clean
`pending` state and returns the whole plan. -/
def getMessagesToProcess (resume : Bool) (msgs : List WMessage) : List WMessage :=
  if resume then
    msgs.filter fun m => decide (m.status = MsgStatus.pending)
  else
    msgs.map fun m =>
      if m.status = MsgStatus.pending then m
      else { m with status := MsgStatus.pending, errorMessage := none, sentAt := none }

/-- Source `WhatsAppImporter.executeImport`: selects the messages to process,
returns an immediate zeroed `completed` result when none remain, and
otherwise runs `_processMessages`; an error escaping the loop marks the
summary `failed` (`progressTracker.updateProgress({status: 'failed'})`) and
is rethrown to the caller. -/
def executeImport (now : Nat) (dryRun : Bool) (resume : Bool)
    (channel : Nat → SendOutcome) (msgs : List WMessage) (tr : TrackerState)
    (rl : Nat) :
    Except (String × TrackerState) (RunResult × TrackerState × Nat) :=
  let toProcess := getMessagesToProcess resume msgs
  if toProcess.isEmpty then
    Except.ok ({ status := RunStatus.completed, totalMessages := 0 }, tr, rl)
  else
    match processMessages now dryRun channel toProcess tr rl with
    | Except.ok out => Except.ok out
    | Except.error (e, tr1) =>
        Except.error (e, { tr1 with summary := { tr1.summary with status := SumStatus.failed } })

/-- One message of `ExecuteCommand._syncPlanWithProgress`: a message whose
latest ledger entry is `sent` is driven `pending → processing → sent`; one
whose latest entry is `failed` is driven `pending → processing → failed`
with the fixed error string; otherwise it is left as is. -/
def syncMessage (now : Nat) (log : List ProgressRecord) (m : WMessage) :
    Except String WMessage :=
  if isMessageSuccessful log m.id then
    match markAsProcessing now m with
    | Except.error e => Except.error e
    | Except.ok m1 => markAsSent now m1
  else if isMessageFailed log m.id then
    match markAsProcessing now m with
    | Except.error e => Except.error e
    | Except.ok m1 => markAsFailed now m1 "Previous attempt failed"
  else
    Except.ok m

/-- Source `ExecuteCommand._syncPlanWithProgress` over the whole plan, failing on
the first invalid transition exactly as the source `for` loop does. -/
def syncPlanWithProgress (now : Nat) (log : List ProgressRecord) :
    List WMessage → Except String (List WMessage)
  | [] => Except.ok []
  | m :: rest =>
      match syncMessage now log m with
      | Except.error e => Except.error e
      | Except.ok m1 =>
          match syncPlanWithProgress now log rest with
          | Except.error e => Except.error e
          | Except.ok rest1 => Except.ok (m1 :: rest1)

/-- The resumed-run pipeline of `ExecuteCommand` when a progress file exists:
sync the freshly loaded plan with the ledger, compute
`shouldResume = options.resume || processedMessages > 0`, and execute. -/
def resumedExecute (now : Nat) (dryRun : Bool) (optResume : Bool)
    (channel : Nat → SendOutcome) (msgs : List WMessage) (tr : TrackerState)
    (rl : Nat) :
    Except (String × TrackerState) (RunResult × TrackerState × Nat) :=
  match syncPlanWithProgress now tr.records msgs with
  | Except.error e => Except.error (e, tr)
  | Except.ok msgs1 =>
      let shouldResume := optResume || decide (0 < tr.summary.processedMessages)
      executeImport now dryRun shouldResume channel msgs1 tr rl

/-- The `rateLimiter` record of `RuntimeState` (`CLIConfig.js`), initialised
with `lastMessageTime: 0`, `messageCount: 0`, `dailyLimit: 1000`. -/
structure RateLimiter where
  lastMessageTime : Nat
  messageCount : Nat
  dailyLimit : Nat
deriving DecidableEq, Repr

/-- Initial rate limiter of a fresh `RuntimeState`. -/
def RateLimiter.init : RateLimiter :=
  { lastMessageTime := 0, messageCount := 0, dailyLimit := 1000 }

/-- The `sleepRange` of `CLIConfig`, in seconds. -/
structure SleepRange where
  min : Nat
  max : Nat
deriving DecidableEq, Repr

/-- Source `RuntimeState.updateRateLimit`: stamp the send time, bump the counter.
Called by the executor only after a successful send. -/
def updateRateLimit (now : Nat) (rl : RateLimiter) : RateLimiter :=
  { rl with lastMessageTime := now, messageCount := rl.messageCount + 1 }

/-- Source `RuntimeState.canSendMessage`: false within `minDelay` of the last send
or once the daily message limit is reached.  No executor code path calls
this function. -/
def canSendMessage (cfg : SleepRange) (now : Nat) (rl : RateLimiter) : Bool :=
  let timeSinceLastMessage : ℤ := (now : ℤ) - (rl.lastMessageTime : ℤ)
  let minimumDelay : ℤ := (cfg.min : ℤ) * 1000
  if timeSinceLastMessage < minimumDelay then false
  else if rl.messageCount ≥ rl.dailyLimit then false
  else true

/-- Source `RuntimeState.getRequiredWaitTime`: the remaining part of the minimum
delay since the last successful send, in milliseconds, clamped at zero.  It
reads only `lastMessageTime`, never `messageCount`. -/
def getRequiredWaitTime (cfg : SleepRange) (now : Nat) (rl : RateLimiter) : ℤ :=
  let timeSinceLastMessage : ℤ := (now : ℤ) - (rl.lastMessageTime : ℤ)
  let minimumDelay : ℤ := (cfg.min : ℤ) * 1000
  max 0 (minimumDelay - timeSinceLastMessage)

/-- Timing state of one run: the wall clock and the rate limiter. -/
structure PaceState where
  now : Nat
  rl : RateLimiter
deriving DecidableEq, Repr

/-- Adversarial timing parameters of one loop iteration: the value returned
by `getRandomSleepDuration()` (any number of seconds — the source draws it
uniformly from `[sleepRange.min, sleepRange.max]`), the time consumed by the
send attempt and its bookkeeping, and whether the attempt succeeded. -/
structure AttemptTiming where
  randomSleepSeconds : Nat
  sendDuration : Nat
  success : Bool
deriving DecidableEq, Repr

/-- Timing of one `_processMessages` iteration: `_waitForRateLimit` sleeps
`getRequiredWaitTime` and then the random delay, the attempt starts, the
send runs for `sendDuration`, and on success `updateRateLimit` stamps the
completion time.  Returns the new state and the attempt start time. -/
def paceStep (cfg : SleepRange) (a : AttemptTiming) (s : PaceState) :
    PaceState × Nat :=
  let waitTime := (getRequiredWaitTime cfg s.now s.rl).toNat
  let attemptTime := s.now + waitTime + a.randomSleepSeconds * 1000
  let finishTime := attemptTime + a.sendDuration
  let rl1 := if a.success then updateRateLimit finishTime s.rl else s.rl
  ({ now := finishTime, rl := rl1 }, attemptTime)

/-- Start times of the successful attempts of a run, in order. -/
def paceRun (cfg : SleepRange) : List AttemptTiming → PaceState → List Nat
  | [], _ => []
  | a :: rest, s =>
      let step := paceStep cfg a s
      if a.success then step.2 :: paceRun cfg rest step.1
      else paceRun cfg rest step.1

/-- Helper: `updateFromRecord` recomputes the processed count as the sum of
the two outcome counters, and bumps exactly one of them. -/
lemma updateFromRecord_fields (s : ProgressSummary) (r : ProgressRecord) :
    (s.updateFromRecord r).processedMessages
        = (s.updateFromRecord r).successfulMessages + (s.updateFromRecord r).failedMessages
    ∧ (s.updateFromRecord r).successfulMessages + (s.updateFromRecord r).failedMessages
        = s.successfulMessages + s.failedMessages + 1
    ∧ (s.updateFromRecord r).totalMessages = s.totalMessages := by
  unfold ProgressSummary.updateFromRecord
  cases r.status <;> simp <;> split <;> (try split) <;> (try simp) <;> omega

/-- Helper: the reconciliation invariant survives any fold of records. -/
lemma applyRecords_inv :
    ∀ (recs : List ProgressRecord) (s : ProgressSummary),
      s.processedMessages = s.successfulMessages + s.failedMessages →
      (applyRecords recs s).processedMessages
        = (applyRecords recs s).successfulMessages + (applyRecords recs s).failedMessages := by
  intro recs
  induction recs with
  | nil => intro s h; simpa [applyRecords] using h
  | cons r rest ih =>
      intro s _
      simp only [applyRecords, List.foldl_cons] at *
      exact ih (s.updateFromRecord r) (updateFromRecord_fields s r).1

/-- Helper: folding records adds one processed attempt per record. -/
lemma applyRecords_counts :
    ∀ (recs : List ProgressRecord) (s : ProgressSummary),
      (applyRecords recs s).successfulMessages + (applyRecords recs s).failedMessages
        = s.successfulMessages + s.failedMessages + recs.length := by
  intro recs
  induction recs with
  | nil => intro s; simp [applyRecords]
  | cons r rest ih =>
      intro s
      simp only [applyRecords, List.foldl_cons, List.length_cons] at *
      rw [ih (s.updateFromRecord r)]
      have h := (updateFromRecord_fields s r).2.1
      omega

/-- Helper: from a fresh summary, the processed count equals the number of
recorded attempts. -/
lemma applyRecords_processed_create (recs : List ProgressRecord) (n : Nat) :
    (applyRecords recs (ProgressSummary.create n)).processedMessages = recs.length := by
  have h1 := applyRecords_inv recs (ProgressSummary.create n) (by rfl)
  have h2 := applyRecords_counts recs (ProgressSummary.create n)
  have h3 : (ProgressSummary.create n).successfulMessages = 0 := rfl
  have h4 : (ProgressSummary.create n).failedMessages = 0 := rfl
  rw [h3, h4] at h2
  omega

/-- Claim C5 — status reconciliation invariant: `updateFromRecord` (the
summary side of every `ProgressTracker.recordProgress` call) bumps exactly
one of the success/failure counters per recorded attempt, `recordProgress`
updates the summary through it, and after any sequence of recorded attempts
applied to a fresh summary, `processedMessages` equals
`successfulMessages + failedMessages`. -/
theorem c5_status_reconciliation :
    (∀ (s : ProgressSummary) (r : ProgressRecord),
        (s.updateFromRecord r).successfulMessages + (s.updateFromRecord r).failedMessages
          = s.successfulMessages + s.failedMessages + 1)
    ∧ (∀ (now : Nat) (tr tr1 : TrackerState) (r : ProgressRecord),
        recordProgress now tr r = Except.ok tr1 →
          tr1.summary = tr.summary.updateFromRecord r)
    ∧ ∀ (total : Nat) (recs : List ProgressRecord),
        (applyRecords recs (ProgressSummary.create total)).processedMessages
          = (applyRecords recs (ProgressSummary.create total)).successfulMessages
            + (applyRecords recs (ProgressSummary.create total)).failedMessages := by
  refine ⟨fun s r => (updateFromRecord_fields s r).2.1, ?_, ?_⟩
  · intro now tr tr1 r h
    unfold recordProgress at h
    split at h
    · exact absurd h (by simp)
    · simp only [Except.ok.injEq] at h
      rw [← h]
  · intro total recs
    exact applyRecords_inv recs (ProgressSummary.create total) (by simp [ProgressSummary.create])

/-- Concrete record for the C5 witness. -/
def c5Rec : ProgressRecord :=
  { messageId := 1, telegramId := 1, status := RecStatus.sent, timestamp := 0,
    errorMessage := none, retryCount := 0, sentMessageId := some 9 }

/-- Concrete tracker input for the C5 witness. -/
def c5TrIn : TrackerState :=
  { records := [], summary := ProgressSummary.create 2 }

/-- Concrete tracker output for the C5 witness. -/
def c5TrOut : TrackerState :=
  { records := [c5Rec]
    summary := { totalMessages := 2, processedMessages := 1, successfulMessages := 1,
                 failedMessages := 0, currentPosition := 0, status := SumStatus.running } }

/-- Witness for C5's quantified hypotheses at a concrete input. -/
theorem c5_witness :
    recordProgress 0 c5TrIn c5Rec = Except.ok c5TrOut
    ∧ c5TrOut.summary = c5TrIn.summary.updateFromRecord c5Rec :=
  ⟨rfl, c5_status_reconciliation.2.1 0 c5TrIn c5TrOut c5Rec rfl⟩

/-- Failing ledger entry of the C6 scenario: the first attempt at job 3. -/
def c6FailedRec : ProgressRecord :=
  { messageId := 3, telegramId := 3, status := RecStatus.failed, timestamp := 0,
    errorMessage := some "send timeout", retryCount := 1, sentMessageId := none }

/-- Sent ledger entry of the C6 scenario: the retry of job 3 succeeding. -/
def c6SentRec : ProgressRecord :=
  { messageId := 3, telegramId := 3, status := RecStatus.sent, timestamp := 0,
    errorMessage := none, retryCount := 0, sentMessageId := some 11 }

/-- Claim C6 — evaluation at the failing input: on a one-job plan, recording
a failed attempt and then the successful retry of the same job through the
`recordProgress` write path leaves `processedMessages = 2 > totalMessages
= 1` with `status = completed`, and the resulting summary is rejected by the
model's own business-rule validation (so the next startup load of
`progress.json` fails).  This contradicts the claimed
`processedJobs ≤ totalJobs` bound and the `completed → processedJobs =
totalJobs` guarantee. -/
theorem c6_processed_exceeds_total :
    ∃ tr1 tr2 : TrackerState,
      recordProgress 0 { records := [], summary := ProgressSummary.create 1 } c6FailedRec
        = Except.ok tr1
      ∧ recordProgress 0 tr1 c6SentRec = Except.ok tr2
      ∧ tr2.summary.processedMessages = 2
      ∧ tr2.summary.totalMessages = 1
      ∧ tr2.summary.status = SumStatus.completed
      ∧ validateSummaryData tr2.summary
          = Except.error "Processed messages cannot exceed total messages" := by
  refine ⟨_, _, rfl, rfl, ?_, ?_, ?_, ?_⟩ <;> rfl

/-- Claim C7 — terminal-state immutability: a job whose status is `sent` or
`skipped` rejects every `updateStatus` call — hence every `markAsProcessing`,
`markAsSent`, `markAsFailed` and `markAsSkipped` — with the invalid-transition
error; since the source mutates only after the transition check, the thrown
error leaves the job unchanged, which the `Except` embedding captures by
returning no updated message. -/
theorem c7_terminal_immutability (now : Nat) (m : WMessage)
    (h : m.status = MsgStatus.sent ∨ m.status = MsgStatus.skipped) :
    (∀ (newStatus : MsgStatus) (errorMessage : Option String),
        updateStatus now m newStatus errorMessage
          = Except.error "Invalid status transition")
    ∧ markAsProcessing now m = Except.error "Invalid status transition"
    ∧ markAsSent now m = Except.error "Invalid status transition"
    ∧ (∀ e, markAsFailed now m e = Except.error "Invalid status transition")
    ∧ markAsSkipped now m = Except.error "Invalid status transition" := by
  have main : ∀ (newStatus : MsgStatus) (errorMessage : Option String),
      updateStatus now m newStatus errorMessage
        = Except.error "Invalid status transition" := by
    intro newStatus errorMessage
    have hc : canTransitionTo m newStatus = false := by
      rcases h with h | h <;> simp [canTransitionTo, statusTransitions, h]
    simp [updateStatus, hc]
  exact ⟨main, main _ _, main _ _, fun e => main _ _, main _ _⟩

/-- Witness for C7 at a concrete terminal job. -/
theorem c7_witness :
    ({ id := 1, telegramId := 1, status := MsgStatus.sent, errorMessage := none,
       sentAt := some 5 : WMessage }.status = MsgStatus.sent
      ∨ { id := 1, telegramId := 1, status := MsgStatus.sent, errorMessage := none,
          sentAt := some 5 : WMessage }.status = MsgStatus.skipped)
    ∧ markAsSent 0
        { id := 1, telegramId := 1, status := MsgStatus.sent, errorMessage := none,
          sentAt := some 5 }
      = Except.error "Invalid status transition" :=
  ⟨Or.inl rfl,
   (c7_terminal_immutability 0
     { id := 1, telegramId := 1, status := MsgStatus.sent, errorMessage := none,
       sentAt := some 5 } (Or.inl rfl)).2.2.1⟩

/-- Claim C10 — zero-denominator reporting: `getSuccessRate` returns 100 on a
summary with no processed messages, `getCompletionPercentage` returns 100 on
a summary with no messages at all; both functions guard the division and are
total Lean functions over every summary state. -/
theorem c10_zero_denominator (s : ProgressSummary) :
    (s.processedMessages = 0 → s.getSuccessRate = 100)
    ∧ (s.totalMessages = 0 → s.getCompletionPercentage = 100) := by
  constructor <;> intro h <;>
    simp [ProgressSummary.getSuccessRate, ProgressSummary.getCompletionPercentage, h]

/-- Witness for C10 at the fresh empty summary. -/
theorem c10_witness :
    (ProgressSummary.create 0).getSuccessRate = 100
    ∧ (ProgressSummary.create 0).getCompletionPercentage = 100 :=
  ⟨(c10_zero_denominator (ProgressSummary.create 0)).1 rfl,
   (c10_zero_denominator (ProgressSummary.create 0)).2 rfl⟩

/-- Helper: a successful `ProgressRecord.create` returns exactly the record
it builds. -/
lemma create_ok_eq {now mid tid : Nat} {st : RecStatus} {err : Option String}
    {smid : Option Nat} {r : ProgressRecord}
    (h : ProgressRecord.create now mid tid st err smid = Except.ok r) :
    r = { messageId := mid, telegramId := tid, status := st, timestamp := now,
          errorMessage := err, retryCount := if st = RecStatus.failed then 1 else 0,
          sentMessageId := smid } := by
  unfold ProgressRecord.create at h
  dsimp only at h
  split at h
  · exact absurd h (by simp)
  · simp only [Except.ok.injEq] at h
    exact h.symm

/-- Shape of every record produced by `ProgressRecord.create`: the retry
count is the constant determined by the status, never a cumulative count. -/
def freshRecordShape (r : ProgressRecord) : Prop :=
  r.retryCount = if r.status = RecStatus.failed then 1 else 0

/-- Helper: records from `ProgressRecord.create` have the fresh shape. -/
lemma create_shape {now mid tid : Nat} {st : RecStatus} {err : Option String}
    {smid : Option Nat} {r : ProgressRecord}
    (h : ProgressRecord.create now mid tid st err smid = Except.ok r) :
    freshRecordShape r := by
  rw [freshRecordShape, create_ok_eq h]

/-- Helper: a successful `recordProgress` appends exactly its record. -/
lemma recordProgress_records {now : Nat} {tr tr1 : TrackerState} {r : ProgressRecord}
    (h : recordProgress now tr r = Except.ok tr1) :
    tr1.records = tr.records ++ [r] := by
  unfold recordProgress at h
  split at h
  · exact absurd h (by simp)
  · simp only [Except.ok.injEq] at h
    rw [← h]

/-- Helper: the catch block appends only freshly created records. -/
lemma catchPath_records {now : Nat} {e : String} {m : WMessage} {res res1 : RunResult}
    {tr tr1 : TrackerState} {rl rl1 : Nat}
    (h : catchPath now e m res tr rl = Except.ok (res1, tr1, rl1)) :
    ∀ r ∈ tr1.records, r ∈ tr.records ∨ freshRecordShape r := by
  unfold catchPath at h
  dsimp only at h
  split at h
  · exact absurd h (by simp)
  · rename_i rec hcreate
    split at h
    · exact absurd h (by simp)
    · rename_i tr2 hrec
      simp only [Except.ok.injEq, Prod.mk.injEq] at h
      obtain ⟨-, h2, -⟩ := h
      subst h2
      intro r hr
      rw [recordProgress_records hrec] at hr
      rcases List.mem_append.mp hr with hmem | hmem
      · exact Or.inl hmem
      · rw [List.mem_singleton] at hmem
        subst hmem
        exact Or.inr (create_shape hcreate)

/-- Helper: one loop iteration appends only freshly created records. -/
lemma processOne_records {now : Nat} {dryRun : Bool} {o : SendOutcome} {m : WMessage}
    {res res1 : RunResult} {tr tr1 : TrackerState} {rl rl1 : Nat}
    (h : processOne now dryRun o m res tr rl = Except.ok (res1, tr1, rl1)) :
    ∀ r ∈ tr1.records, r ∈ tr.records ∨ freshRecordShape r := by
  unfold processOne at h
  split at h
  · exact catchPath_records h
  · rename_i mr m2
    dsimp only at h
    split at h
    · exact catchPath_records h
    · rename_i rec hcreate
      split at h
      · exact catchPath_records h
      · rename_i tr2 hrec
        simp only [Except.ok.injEq, Prod.mk.injEq] at h
        obtain ⟨-, h2, -⟩ := h
        subst h2
        intro r hr
        rw [recordProgress_records hrec] at hr
        rcases List.mem_append.mp hr with hmem | hmem
        · exact Or.inl hmem
        · rw [List.mem_singleton] at hmem
          subst hmem
          exact Or.inr (create_shape hcreate)

/-- Helper: a whole run appends only freshly created records. -/
lemma processLoop_records {now : Nat} {dryRun : Bool} {channel : Nat → SendOutcome} :
    ∀ {msgs : List WMessage} {res res1 : RunResult} {tr tr1 : TrackerState}
      {rl rl1 : Nat},
      processLoop now dryRun channel msgs res tr rl = Except.ok (res1, tr1, rl1) →
      ∀ r ∈ tr1.records, r ∈ tr.records ∨ freshRecordShape r := by
  intro msgs
  induction msgs with
  | nil =>
      intro res res1 tr tr1 rl rl1 h
      unfold processLoop at h
      simp only [Except.ok.injEq, Prod.mk.injEq] at h
      obtain ⟨-, h2, -⟩ := h
      subst h2
      intro r hr
      exact Or.inl hr
  | cons m rest ih =>
      intro res res1 tr tr1 rl rl1 h
      unfold processLoop at h
      split at h
      · exact absurd h (by simp)
      · rename_i res2 tr2 rl2 hone
        intro r hr
        rcases ih h r hr with hmem | hs
        · rcases processOne_records hone r hmem with h' | h'
          · exact Or.inl h'
          · exact Or.inr h'
        · exact Or.inr hs

/-- Claim C9 — constant per-record retry count: `ProgressRecord.create`
stamps `retryCount = 1` on every failed record and `retryCount = 0` on every
sent record, with no dependence on prior attempts (its inputs carry no
history); every record the executor loop appends therefore satisfies
`canRetry` when failed, so the per-record retry ceiling (`retryCount < 10`)
is never reached through the executor's write path. -/
theorem c9_retry_count_reset :
    (∀ (now mid tid : Nat) (err : Option String) (smid : Option Nat)
        (r : ProgressRecord),
        ProgressRecord.create now mid tid RecStatus.failed err smid = Except.ok r →
          r.retryCount = 1 ∧ r.canRetry = true)
    ∧ (∀ (now mid tid : Nat) (err : Option String) (smid : Option Nat)
        (r : ProgressRecord),
        ProgressRecord.create now mid tid RecStatus.sent err smid = Except.ok r →
          r.retryCount = 0)
    ∧ ∀ (now : Nat) (dryRun : Bool) (channel : Nat → SendOutcome)
        (msgs : List WMessage) (res res1 : RunResult) (tr tr1 : TrackerState)
        (rl rl1 : Nat),
        processLoop now dryRun channel msgs res tr rl = Except.ok (res1, tr1, rl1) →
        ∀ r ∈ tr1.records, r ∈ tr.records
          ∨ (r.status = RecStatus.failed ∧ r.retryCount = 1 ∧ r.canRetry = true)
          ∨ (r.status = RecStatus.sent ∧ r.retryCount = 0) := by
  refine ⟨?_, ?_, ?_⟩
  · intro now mid tid err smid r h
    rw [create_ok_eq h]
    simp [ProgressRecord.canRetry]
  · intro now mid tid err smid r h
    rw [create_ok_eq h]
    simp
  · intro now dryRun channel msgs res res1 tr tr1 rl rl1 h r hr
    rcases processLoop_records h r hr with hmem | hs
    · exact Or.inl hmem
    · rw [freshRecordShape] at hs
      rcases hstat : r.status with hsent | hfail
      · refine Or.inr (Or.inr ⟨rfl, ?_⟩)
        rw [hs, hstat]
        rfl
      · refine Or.inr (Or.inl ⟨rfl, ?_, ?_⟩)
        · rw [hs, hstat]
          rfl
        · have hrc : r.retryCount = 1 := by rw [hs, hstat]; rfl
          simp [ProgressRecord.canRetry, hstat, hrc]

/-- Helper: a pending message can be marked processing. -/
lemma markAsProcessing_pending {now : Nat} {m : WMessage}
    (h : m.status = MsgStatus.pending) :
    markAsProcessing now m
      = Except.ok { m with status := MsgStatus.processing, errorMessage := none } := by
  simp [markAsProcessing, updateStatus, canTransitionTo, statusTransitions, h]

/-- Helper: a failed message can be marked processing (the retry path). -/
lemma markAsProcessing_failed {now : Nat} {m : WMessage}
    (h : m.status = MsgStatus.failed) :
    markAsProcessing now m
      = Except.ok { m with status := MsgStatus.processing, errorMessage := none } := by
  simp [markAsProcessing, updateStatus, canTransitionTo, statusTransitions, h]

/-- Helper: marking processing from processing, sent or skipped throws. -/
lemma markAsProcessing_invalid {now : Nat} {m : WMessage}
    (h : m.status = MsgStatus.processing ∨ m.status = MsgStatus.sent
      ∨ m.status = MsgStatus.skipped) :
    markAsProcessing now m = Except.error "Invalid status transition" := by
  rcases h with h | h | h <;>
    simp [markAsProcessing, updateStatus, canTransitionTo, statusTransitions, h]

/-- Helper: a processing message can be marked sent. -/
lemma markAsSent_processing {now : Nat} {m : WMessage}
    (h : m.status = MsgStatus.processing) :
    markAsSent now m
      = Except.ok
          { m with status := MsgStatus.sent, errorMessage := none,
                   sentAt := some now } := by
  simp [markAsSent, updateStatus, canTransitionTo, statusTransitions, h]

/-- Helper: a processing message can be marked failed with a truthy error. -/
lemma markAsFailed_processing {now : Nat} {m : WMessage} {e : String}
    (h : m.status = MsgStatus.processing) (he : e ≠ "") :
    markAsFailed now m e
      = Except.ok { m with status := MsgStatus.failed, errorMessage := some e } := by
  simp [markAsFailed, updateStatus, canTransitionTo, statusTransitions, h, optTruthy, he]

/-- Helper: marking failed from a terminal state throws. -/
lemma markAsFailed_terminal {now : Nat} {m : WMessage} {e : String}
    (h : m.status = MsgStatus.sent ∨ m.status = MsgStatus.skipped) :
    markAsFailed now m e = Except.error "Invalid status transition" := by
  rcases h with h | h <;>
    simp [markAsFailed, updateStatus, canTransitionTo, statusTransitions, h]

/-- Helper: creating a sent record with no error message succeeds. -/
lemma create_sent_ok (now mid tid : Nat) (smid : Option Nat) :
    ProgressRecord.create now mid tid RecStatus.sent none smid
      = Except.ok { messageId := mid, telegramId := tid, status := RecStatus.sent,
                    timestamp := now, errorMessage := none, retryCount := 0,
                    sentMessageId := smid } := by
  unfold ProgressRecord.create validateRecordData
  have ht : ¬ now > now + 60000 := by omega
  simp [optTruthy, ht]

/-- Helper: creating a failed record with a nonempty error message succeeds. -/
lemma create_failed_ok (now mid tid : Nat) (s : String) (hs : s ≠ "")
    (smid : Option Nat) :
    ProgressRecord.create now mid tid RecStatus.failed (some s) smid
      = Except.ok { messageId := mid, telegramId := tid, status := RecStatus.failed,
                    timestamp := now, errorMessage := some s, retryCount := 1,
                    sentMessageId := smid } := by
  unfold ProgressRecord.create validateRecordData
  have ht : ¬ now > now + 60000 := by omega
  simp [optTruthy, ht, hs]

/-- Helper: a record accepted by `create` is accepted by the validation
`recordProgress` repeats. -/
lemma create_ok_validate {now mid tid : Nat} {st : RecStatus} {err : Option String}
    {smid : Option Nat} {r : ProgressRecord}
    (h : ProgressRecord.create now mid tid st err smid = Except.ok r) :
    validateRecordData now r = Except.ok () := by
  unfold ProgressRecord.create at h
  dsimp only at h
  split at h
  · exact absurd h (by simp)
  · rename_i u hv
    simp only [Except.ok.injEq] at h
    subst h
    cases u
    exact hv

/-- Helper: `recordProgress` on a record passing validation appends it and
updates the summary. -/
lemma recordProgress_ok {now : Nat} {tr : TrackerState} {r : ProgressRecord}
    (h : validateRecordData now r = Except.ok ()) :
    recordProgress now tr r
      = Except.ok { records := tr.records ++ [r],
                    summary := tr.summary.updateFromRecord r } := by
  simp [recordProgress, h]

/-- Classification of channel outcomes usable by the run-totality lemmas:
the adapter's error message (if any) is nonempty, as real error messages
are.  An empty error message would make `ProgressRecord.create` itself throw
inside the loop's catch block. -/
def outcomeOk : SendOutcome → Prop
  | SendOutcome.success _ => True
  | SendOutcome.jobError s => s ≠ ""
  | SendOutcome.connError s => s ≠ ""


/-- Ledger entry the loop writes for a successful send of message `m`. -/
def sentRecordOf (now : Nat) (m : WMessage) (w : Nat) : ProgressRecord :=
  { messageId := m.id, telegramId := m.telegramId, status := RecStatus.sent,
    timestamp := now, errorMessage := none, retryCount := 0, sentMessageId := some w }

/-- Ledger entry the loop writes for a failed attempt at message `m`. -/
def failedRecordOf (now : Nat) (m : WMessage) (e : String) : ProgressRecord :=
  { messageId := m.id, telegramId := m.telegramId, status := RecStatus.failed,
    timestamp := now, errorMessage := some e, retryCount := 1, sentMessageId := none }

/-- Helper: the catch block, on a nonempty error message, counts the message
failed and processed, appends the failed entry and keeps the counter. -/
lemma catchPath_total (now : Nat) (e : String) (he : e ≠ "") (m : WMessage)
    (res : RunResult) (tr : TrackerState) (rl : Nat) :
    catchPath now e m res tr rl
      = Except.ok
          ({ res with failedMessages := res.failedMessages + 1,
                      processedMessages := res.processedMessages + 1,
                      errors := res.errors ++ [(m.id, some e)] },
           { records := tr.records ++ [failedRecordOf now m e],
             summary := tr.summary.updateFromRecord (failedRecordOf now m e) },
           rl) := by
  have hc := create_failed_ok now m.id m.telegramId e he none
  have hr := @recordProgress_ok now tr _ (create_ok_validate hc)
  simp [catchPath, failedRecordOf, hc, hr]

/-- Helper: a pending or retried (failed) message with a successful send is
counted successful, its sent entry is appended, and the rate counter bumps. -/
lemma processOne_success_eq {now : Nat} {m : WMessage}
    (hst : m.status = MsgStatus.pending ∨ m.status = MsgStatus.failed)
    (w : Nat) (res : RunResult) (tr : TrackerState) (rl : Nat) :
    processOne now false (SendOutcome.success w) m res tr rl
      = Except.ok
          ({ res with processedMessages := res.processedMessages + 1,
                      successfulMessages := res.successfulMessages + 1 },
           { records := tr.records ++ [sentRecordOf now m w],
             summary := tr.summary.updateFromRecord (sentRecordOf now m w) },
           rl + 1) := by
  have hp :
      markAsProcessing now m
        = Except.ok { m with status := MsgStatus.processing, errorMessage := none } := by
    rcases hst with h | h
    · exact markAsProcessing_pending h
    · exact markAsProcessing_failed h
  have hsent := @markAsSent_processing now
    { m with status := MsgStatus.processing, errorMessage := none } rfl
  have hc := create_sent_ok now m.id m.telegramId (some w)
  have hr := @recordProgress_ok now tr _ (create_ok_validate hc)
  simp [processOne, processSingleMessage, hp, hsent, jsOrNull, sentRecordOf, hc, hr]

/-- Helper: a pending or retried message whose send raises an error — job or
connection scoped alike — is counted failed, its failed entry is appended,
and the loop result is still a success value. -/
lemma processOne_sendError_eq {now : Nat} {m : WMessage}
    (hst : m.status = MsgStatus.pending ∨ m.status = MsgStatus.failed)
    {o : SendOutcome} {s : String}
    (ho : o = SendOutcome.jobError s ∨ o = SendOutcome.connError s) (hs : s ≠ "")
    (res : RunResult) (tr : TrackerState) (rl : Nat) :
    processOne now false o m res tr rl
      = Except.ok
          ({ res with processedMessages := res.processedMessages + 1,
                      failedMessages := res.failedMessages + 1,
                      errors := res.errors ++ [(m.id, some s)] },
           { records := tr.records ++ [failedRecordOf now m s],
             summary := tr.summary.updateFromRecord (failedRecordOf now m s) },
           rl) := by
  have hp :
      markAsProcessing now m
        = Except.ok { m with status := MsgStatus.processing, errorMessage := none } := by
    rcases hst with h | h
    · exact markAsProcessing_pending h
    · exact markAsProcessing_failed h
  have hf := @markAsFailed_processing now
    { m with status := MsgStatus.processing, errorMessage := none } s rfl hs
  have hjs : jsOrNull (some s) = some s := by simp [jsOrNull, hs]
  have hc := create_failed_ok now m.id m.telegramId s hs none
  have hr := @recordProgress_ok now tr _ (create_ok_validate hc)
  rcases ho with ho | ho <;> subst ho <;>
    simp [processOne, processSingleMessage, hp, hf, hjs, failedRecordOf, hc, hr]

/-- Helper: one loop iteration completes for every message status and every
channel outcome with a nonempty error message — a connection-level error is
absorbed exactly like a job-level one — and counts the message as processed
exactly once. -/
lemma processOne_total (now : Nat) (o : SendOutcome) (m : WMessage)
    (res : RunResult) (tr : TrackerState) (rl : Nat) (ho : outcomeOk o) :
    ∃ res1 tr1 rl1,
      processOne now false o m res tr rl = Except.ok (res1, tr1, rl1)
      ∧ res1.processedMessages = res.processedMessages + 1 := by
  have hinv : ("Invalid status transition" : String) ≠ "" := by decide
  cases hst : m.status with
  | pending =>
      cases o with
      | success w => exact ⟨_, _, _, processOne_success_eq (Or.inl hst) w res tr rl, by simp⟩
      | jobError s =>
          exact ⟨_, _, _,
            processOne_sendError_eq (Or.inl hst) (Or.inl rfl) ho res tr rl, by simp⟩
      | connError s =>
          exact ⟨_, _, _,
            processOne_sendError_eq (Or.inl hst) (Or.inr rfl) ho res tr rl, by simp⟩
  | failed =>
      cases o with
      | success w => exact ⟨_, _, _, processOne_success_eq (Or.inr hst) w res tr rl, by simp⟩
      | jobError s =>
          exact ⟨_, _, _,
            processOne_sendError_eq (Or.inr hst) (Or.inl rfl) ho res tr rl, by simp⟩
      | connError s =>
          exact ⟨_, _, _,
            processOne_sendError_eq (Or.inr hst) (Or.inr rfl) ho res tr rl, by simp⟩
  | processing =>
      have hp := @markAsProcessing_invalid now m (Or.inl hst)
      have hf := @markAsFailed_processing now m "Invalid status transition" hst hinv
      have hjs : jsOrNull (some "Invalid status transition")
          = some "Invalid status transition" := by simp [jsOrNull]
      have hc := create_failed_ok now m.id m.telegramId "Invalid status transition" hinv none
      have hr := @recordProgress_ok now tr _ (create_ok_validate hc)
      have heq :
          processOne now false o m res tr rl
            = Except.ok
                ({ res with processedMessages := res.processedMessages + 1,
                            failedMessages := res.failedMessages + 1,
                            errors := res.errors
                              ++ [(m.id, some "Invalid status transition")] },
                 { records := tr.records
                     ++ [failedRecordOf now m "Invalid status transition"],
                   summary := tr.summary.updateFromRecord
                     (failedRecordOf now m "Invalid status transition") },
                 rl) := by
        simp [processOne, processSingleMessage, hp, hf, hjs, failedRecordOf, hc, hr]
      exact ⟨_, _, _, heq, by simp⟩
  | sent =>
      have hp := @markAsProcessing_invalid now m (Or.inr (Or.inl hst))
      have hf := @markAsFailed_terminal now m "Invalid status transition" (Or.inl hst)
      have hcp := catchPath_total now "Invalid status transition" hinv m res tr rl
      have heq :
          processOne now false o m res tr rl
            = catchPath now "Invalid status transition" m res tr rl := by
        simp [processOne, processSingleMessage, hp, hf]
      rw [hcp] at heq
      exact ⟨_, _, _, heq, by simp⟩
  | skipped =>
      have hp := @markAsProcessing_invalid now m (Or.inr (Or.inr hst))
      have hf := @markAsFailed_terminal now m "Invalid status transition" (Or.inr hst)
      have hcp := catchPath_total now "Invalid status transition" hinv m res tr rl
      have heq :
          processOne now false o m res tr rl
            = catchPath now "Invalid status transition" m res tr rl := by
        simp [processOne, processSingleMessage, hp, hf]
      rw [hcp] at heq
      exact ⟨_, _, _, heq, by simp⟩

/-- Helper: the whole loop completes for every plan and every channel whose
error messages are nonempty, attempting every selected message — no outcome,
connection-level included, stops it. -/
lemma processLoop_total (now : Nat) (channel : Nat → SendOutcome)
    (hch : ∀ i, outcomeOk (channel i)) :
    ∀ (msgs : List WMessage) (res : RunResult) (tr : TrackerState) (rl : Nat),
      ∃ res1 tr1 rl1,
        processLoop now false channel msgs res tr rl = Except.ok (res1, tr1, rl1)
        ∧ res1.processedMessages = res.processedMessages + msgs.length := by
  intro msgs
  induction msgs with
  | nil =>
      intro res tr rl
      exact ⟨res, tr, rl, by simp [processLoop], by simp⟩
  | cons m rest ih =>
      intro res tr rl
      obtain ⟨res2, tr2, rl2, h1, h2⟩ :=
        processOne_total now (channel m.id) m res tr rl (hch m.id)
      obtain ⟨res3, tr3, rl3, h3, h4⟩ := ih res2 tr2 rl2
      refine ⟨res3, tr3, rl3, ?_, ?_⟩
      · simp [processLoop, h1, h3]
      · rw [h4, h2]
        simp only [List.length_cons]
        omega

/-- Concrete failed record for the C9 witness. -/
def c9FailedOut : ProgressRecord :=
  { messageId := 1, telegramId := 2, status := RecStatus.failed, timestamp := 0,
    errorMessage := some "boom", retryCount := 1, sentMessageId := none }

/-- Concrete sent record for the C9 witness. -/
def c9SentOut : ProgressRecord :=
  { messageId := 1, telegramId := 2, status := RecStatus.sent, timestamp := 0,
    errorMessage := none, retryCount := 0, sentMessageId := some 3 }

/-- Witness for C9 at concrete `create` calls. -/
theorem c9_witness :
    (c9FailedOut.retryCount = 1 ∧ c9FailedOut.canRetry = true)
    ∧ c9SentOut.retryCount = 0 :=
  ⟨c9_retry_count_reset.1 0 1 2 (some "boom") none c9FailedOut rfl,
   c9_retry_count_reset.2.1 0 1 2 none (some 3) c9SentOut rfl⟩

/-- Five-job plan of the C2 resume scenario, all pending when loaded. -/
def c2Plan : List WMessage :=
  [{ id := 1, telegramId := 1, status := MsgStatus.pending, errorMessage := none, sentAt := none },
   { id := 2, telegramId := 2, status := MsgStatus.pending, errorMessage := none, sentAt := none },
   { id := 3, telegramId := 3, status := MsgStatus.pending, errorMessage := none, sentAt := none },
   { id := 4, telegramId := 4, status := MsgStatus.pending, errorMessage := none, sentAt := none },
   { id := 5, telegramId := 5, status := MsgStatus.pending, errorMessage := none, sentAt := none }]

/-- Existing ledger of the C2 scenario: jobs 1 and 2 sent, job 3 failed with
one recorded attempt. -/
def c2Log : List ProgressRecord :=
  [{ messageId := 1, telegramId := 1, status := RecStatus.sent, timestamp := 0,
     errorMessage := none, retryCount := 0, sentMessageId := some 101 },
   { messageId := 2, telegramId := 2, status := RecStatus.sent, timestamp := 0,
     errorMessage := none, retryCount := 0, sentMessageId := some 102 },
   { messageId := 3, telegramId := 3, status := RecStatus.failed, timestamp := 0,
     errorMessage := some "Rate limit exceeded", retryCount := 1, sentMessageId := none }]

/-- Tracker state matching the C2 ledger. -/
def c2Tracker : TrackerState :=
  { records := c2Log
    summary := { totalMessages := 5, processedMessages := 3, successfulMessages := 2,
                 failedMessages := 1, currentPosition := 3, status := SumStatus.running } }

/-- Claim C2 — evaluation at the failing input: in the 5-job scenario with
jobs 1 and 2 `sent` and job 3 `failed`, the resume pipeline marks job 3
`failed` in the plan, but `getUnprocessedMessages` keeps only `pending`
messages, so the resumed run attempts only jobs 4 and 5 — job 3 is never
retried, contradicting the claimed retry of failed jobs (and the source's
own `--resume` retry hint and test expectations). -/
theorem c2_failed_job_skipped_on_resume :
    ∃ msgs1, syncPlanWithProgress 0 c2Log c2Plan = Except.ok msgs1
      ∧ List.map (fun m => m.id) (getMessagesToProcess true msgs1) = [4, 5]
      ∧ (∀ m ∈ msgs1, m.id = 3 → m.status = MsgStatus.failed)
      ∧ ∃ res tr2 rl2,
          resumedExecute 0 false true (fun i => SendOutcome.success (100 + i))
              c2Plan c2Tracker 0
            = Except.ok (res, tr2, rl2)
          ∧ res.totalMessages = 2
          ∧ res.processedMessages = 2
          ∧ List.map (fun r => r.messageId) tr2.records = [1, 2, 3, 4, 5] := by
  refine ⟨_, rfl, ?_, ?_, _, _, _, rfl, ?_, ?_, ?_⟩ <;> decide

/-- Two-job plan for the C3 counterexample. -/
def c3Plan : List WMessage :=
  [{ id := 1, telegramId := 1, status := MsgStatus.pending, errorMessage := none, sentAt := none },
   { id := 2, telegramId := 2, status := MsgStatus.pending, errorMessage := none, sentAt := none }]

/-- Channel for the C3 counterexample: a connection-level error on job 1,
success on job 2. -/
def c3Channel : Nat → SendOutcome :=
  fun i => if i = 1 then SendOutcome.connError "Connection closed" else SendOutcome.success 55

/-- Claim C3 — counterexample: a connection-level error while sending job 1
of 2 does not stop the loop (job 2 is still attempted and both jobs are
counted processed), does not set the summary to `failed` (it ends
`completed`), and is not propagated (the run returns a success value with
status `completed_with_errors`): the error is recorded as a per-job failure
and the run continues, contrary to the claim. -/
theorem c3_counterexample :
    ∃ res tr rl,
      executeImport 0 false false c3Channel c3Plan
          { records := [], summary := ProgressSummary.create 2 } 0
        = Except.ok (res, tr, rl)
      ∧ res.processedMessages = 2
      ∧ res.status = RunStatus.completedWithErrors
      ∧ tr.summary.status = SumStatus.completed
      ∧ tr.records.length = 2 := by
  refine ⟨_, _, _, rfl, ?_, ?_, ?_, ?_⟩ <;> decide

/-- Claim C3, amended — connection-scoped errors are absorbed: every error
the channel adapter raises while sending (connection-level included, with
any nonempty message) is caught inside `_processSingleMessage`, the job is
marked failed, a failed ledger entry is recorded, and the loop continues:
the run completes normally having attempted every selected message, with no
error surfaced to the caller and no summary failure on that account. -/
theorem c3_connection_error_absorbed (now : Nat) (channel : Nat → SendOutcome)
    (msgs : List WMessage) (res : RunResult) (tr : TrackerState) (rl : Nat)
    (hch : ∀ i, outcomeOk (channel i)) :
    ∃ res1 tr1 rl1,
      processLoop now false channel msgs res tr rl = Except.ok (res1, tr1, rl1)
      ∧ res1.processedMessages = res.processedMessages + msgs.length :=
  processLoop_total now channel hch msgs res tr rl

/-- Channel of the C3 witness: every send raises a connection error. -/
def c3ConnChannel : Nat → SendOutcome :=
  fun _ => SendOutcome.connError "Connection closed"

/-- Witness for C3's amended theorem: a channel that always raises a
connection error still lets the loop attempt its message and finish. -/
theorem c3_witness :
    (∀ i : Nat, outcomeOk (c3ConnChannel i))
    ∧ ∃ res1 tr1 rl1,
        processLoop 0 false c3ConnChannel
            [{ id := 1, telegramId := 1, status := MsgStatus.pending,
               errorMessage := none, sentAt := none }]
            { status := RunStatus.running, totalMessages := 1 }
            { records := [], summary := ProgressSummary.create 1 } 0
          = Except.ok (res1, tr1, rl1)
        ∧ res1.processedMessages = 1 :=
  ⟨fun _ => (by decide : ("Connection closed" : String) ≠ ""),
   c3_connection_error_absorbed 0 c3ConnChannel
     [{ id := 1, telegramId := 1, status := MsgStatus.pending,
        errorMessage := none, sentAt := none }]
     { status := RunStatus.running, totalMessages := 1 }
     { records := [], summary := ProgressSummary.create 1 } 0
     (fun _ => (by decide : ("Connection closed" : String) ≠ ""))⟩

/-- Claim C4 — counterexample: with the rolling counter already at the daily
ceiling (`messageCount = dailyLimit = 1000`), `canSendMessage` does report
the ceiling (returns `false`), yet the executor still attempts the next job
— the loop processes it, pushes the counter to 1001, and ends with a
non-failed summary — because `_waitForRateLimit` never consults the
ceiling.  This contradicts the claimed stop-with-failed behaviour. -/
theorem c4_counterexample :
    canSendMessage { min := 3, max := 10 } 1000000
        { lastMessageTime := 0, messageCount := 1000, dailyLimit := 1000 } = false
    ∧ ∃ res tr rl,
        processLoop 1000000 false (fun i => SendOutcome.success i)
            [{ id := 1, telegramId := 1, status := MsgStatus.pending,
               errorMessage := none, sentAt := none }]
            { status := RunStatus.running, totalMessages := 1 }
            { records := [], summary := ProgressSummary.create 1 } 1000
          = Except.ok (res, tr, rl)
        ∧ res.processedMessages = 1
        ∧ rl = 1001
        ∧ tr.summary.status ≠ SumStatus.failed := by
  refine ⟨rfl, _, _, _, rfl, ?_, ?_, ?_⟩ <;> decide

/-- Claim C4, amended — the daily ceiling exists but is never enforced:
`canSendMessage` reports the ceiling condition once `messageCount` reaches
`dailyLimit`, but the wait the executor actually performs
(`getRequiredWaitTime`) ignores the counter entirely, and the loop attempts
every selected message whatever the counter's starting value — the run is
never stopped or marked failed on account of the ceiling. -/
theorem c4_ceiling_unenforced :
    (∀ (cfg : SleepRange) (now : Nat) (rl : RateLimiter),
        rl.messageCount ≥ rl.dailyLimit → canSendMessage cfg now rl = false)
    ∧ (∀ (cfg : SleepRange) (now : Nat) (rl : RateLimiter),
        getRequiredWaitTime cfg now rl
          = getRequiredWaitTime cfg now { rl with messageCount := 0 })
    ∧ ∀ (now : Nat) (channel : Nat → SendOutcome) (msgs : List WMessage)
        (res : RunResult) (tr : TrackerState) (rlCount : Nat),
        (∀ i, outcomeOk (channel i)) →
        ∃ res1 tr1 rl1,
          processLoop now false channel msgs res tr rlCount
            = Except.ok (res1, tr1, rl1)
          ∧ res1.processedMessages = res.processedMessages + msgs.length := by
  refine ⟨?_, ?_, ?_⟩
  · intro cfg now rl h
    unfold canSendMessage
    dsimp only
    split
    · rfl
    · simp [h]
  · intro cfg now rl
    rfl
  · intro now channel msgs res tr rlCount hch
    exact processLoop_total now channel hch msgs res tr rlCount

/-- Witness for C4's amended theorem at concrete inputs, the counter at the
ceiling. -/
theorem c4_witness :
    canSendMessage { min := 3, max := 10 } 5000
        { lastMessageTime := 0, messageCount := 1000, dailyLimit := 1000 } = false
    ∧ getRequiredWaitTime { min := 3, max := 10 } 5000
        { lastMessageTime := 0, messageCount := 7, dailyLimit := 1000 }
      = getRequiredWaitTime { min := 3, max := 10 } 5000
          { { lastMessageTime := 0, messageCount := 7, dailyLimit := 1000 : RateLimiter }
            with messageCount := 0 }
    ∧ ∃ res1 tr1 rl1,
        processLoop 0 false (fun i => SendOutcome.success i)
            [{ id := 1, telegramId := 1, status := MsgStatus.pending,
               errorMessage := none, sentAt := none }]
            { status := RunStatus.running, totalMessages := 1 }
            { records := [], summary := ProgressSummary.create 1 } 1000
          = Except.ok (res1, tr1, rl1)
        ∧ res1.processedMessages = 1 :=
  ⟨c4_ceiling_unenforced.1 { min := 3, max := 10 } 5000
      { lastMessageTime := 0, messageCount := 1000, dailyLimit := 1000 } (by decide),
   c4_ceiling_unenforced.2.1 { min := 3, max := 10 } 5000
      { lastMessageTime := 0, messageCount := 7, dailyLimit := 1000 },
   c4_ceiling_unenforced.2.2 0 (fun i => SendOutcome.success i)
      [{ id := 1, telegramId := 1, status := MsgStatus.pending,
         errorMessage := none, sentAt := none }]
      { status := RunStatus.running, totalMessages := 1 }
      { records := [], summary := ProgressSummary.create 1 } 1000
      (fun _ => trivial)⟩

/-- Helper: a successful `updateStatus` sets exactly the requested status and
keeps the identifiers. -/
lemma updateStatus_ok_fields {now : Nat} {m : WMessage} {newStatus : MsgStatus}
    {err : Option String} {m1 : WMessage}
    (h : updateStatus now m newStatus err = Except.ok m1) :
    m1.status = newStatus ∧ m1.id = m.id := by
  unfold updateStatus at h
  split at h
  · exact absurd h (by simp)
  · dsimp only at h
    simp only [Except.ok.injEq] at h
    subst h
    constructor <;> (split_ifs <;> rfl)

/-- Helper: a synced message keeps its id, and is `sent` whenever its latest
ledger entry is `sent`. -/
lemma syncMessage_cases {now : Nat} {log : List ProgressRecord} {m m1 : WMessage}
    (h : syncMessage now log m = Except.ok m1) :
    m1.id = m.id
    ∧ (isMessageSuccessful log m.id = true → m1.status = MsgStatus.sent) := by
  unfold syncMessage at h
  split at h
  · rename_i h1
    split at h
    · exact absurd h (by simp)
    · rename_i mm hmm
      have f1 := updateStatus_ok_fields
        (show updateStatus now m MsgStatus.processing none = Except.ok mm from hmm)
      have f2 := updateStatus_ok_fields
        (show updateStatus now mm MsgStatus.sent none = Except.ok m1 from h)
      exact ⟨by rw [f2.2, f1.2], fun _ => f2.1⟩
  · rename_i h1
    split at h
    · rename_i h2
      split at h
      · exact absurd h (by simp)
      · rename_i mm hmm
        have f1 := updateStatus_ok_fields
          (show updateStatus now m MsgStatus.processing none = Except.ok mm from hmm)
        have f2 := updateStatus_ok_fields
          (show updateStatus now mm MsgStatus.failed (some "Previous attempt failed")
            = Except.ok m1 from h)
        refine ⟨by rw [f2.2, f1.2], fun hs => absurd hs h1⟩
    · rename_i h2
      simp only [Except.ok.injEq] at h
      subst h
      exact ⟨rfl, fun hs => absurd hs h1⟩

/-- Helper: every message of a successfully synced plan is the sync of some
plan message. -/
lemma syncPlan_mem {now : Nat} {log : List ProgressRecord} :
    ∀ {msgs msgs1 : List WMessage},
      syncPlanWithProgress now log msgs = Except.ok msgs1 →
      ∀ m1 ∈ msgs1, ∃ m ∈ msgs, syncMessage now log m = Except.ok m1 := by
  intro msgs
  induction msgs with
  | nil =>
      intro msgs1 h m1 hm1
      unfold syncPlanWithProgress at h
      simp only [Except.ok.injEq] at h
      subst h
      simp at hm1
  | cons m rest ih =>
      intro msgs1 h m1 hm1
      unfold syncPlanWithProgress at h
      split at h
      · exact absurd h (by simp)
      · rename_i ms hms
        split at h
        · exact absurd h (by simp)
        · rename_i rest1 hrest
          simp only [Except.ok.injEq] at h
          subst h
          rcases List.mem_cons.mp hm1 with rfl | hmem
          · exact ⟨m, List.mem_cons_self m rest, hms⟩
          · obtain ⟨m0, hm0, hs⟩ := ih hrest m1 hmem
            exact ⟨m0, List.mem_cons_of_mem m hm0, hs⟩

/-- Helper: the no-resume branch of `_getMessagesToProcess` is the identity
on an all-pending plan. -/
lemma getMessagesToProcess_false_pending {msgs : List WMessage}
    (h : ∀ m ∈ msgs, m.status = MsgStatus.pending) :
    getMessagesToProcess false msgs = msgs := by
  unfold getMessagesToProcess
  simp only [Bool.false_eq_true, if_false]
  calc msgs.map (fun m =>
          if m.status = MsgStatus.pending then m
          else { m with status := MsgStatus.pending, errorMessage := none,
                        sentAt := none })
      = msgs.map id := List.map_congr_left (fun m hm => by simp [h m hm])
    _ = msgs := List.map_id msgs

/-- Helper: on a log whose entries are all `sent`, any id that occurs in the
log is reported successful by the resume index. -/
lemma isMessageSuccessful_all_sent {log : List ProgressRecord} {id : Nat}
    (hall : ∀ r ∈ log, r.status = RecStatus.sent)
    (hex : ∃ r ∈ log, r.messageId = id) :
    isMessageSuccessful log id = true := by
  obtain ⟨r0, hr0, hid⟩ := hex
  have hsome : (log.reverse.find? fun r => decide (r.messageId = id)).isSome := by
    rw [List.find?_isSome]
    exact ⟨r0, List.mem_reverse.mpr hr0, by simp [hid]⟩
  obtain ⟨r1, hr1⟩ := Option.isSome_iff_exists.mp hsome
  have hsent := hall r1 (List.mem_reverse.mp (List.mem_of_find?_eq_some hr1))
  unfold isMessageSuccessful latestRecord
  rw [hr1]
  simp [hsent]

/-- Helper: syncing a pending message whose latest entry is `sent` drives it
to `sent`. -/
lemma syncMessage_sent_eq {now : Nat} {log : List ProgressRecord} {m : WMessage}
    (hp : m.status = MsgStatus.pending) (hs : isMessageSuccessful log m.id = true) :
    syncMessage now log m
      = Except.ok { m with status := MsgStatus.sent, errorMessage := none,
                           sentAt := some now } := by
  have h1 := @markAsProcessing_pending now m hp
  have h2 := @markAsSent_processing now
    { m with status := MsgStatus.processing, errorMessage := none } rfl
  simp [syncMessage, hs, h1, h2]

/-- Helper: syncing an all-pending plan against an all-sent ledger that
covers it marks every message `sent`. -/
lemma syncPlan_all_sent_eq {now : Nat} {log : List ProgressRecord} :
    ∀ {msgs : List WMessage},
      (∀ m ∈ msgs, m.status = MsgStatus.pending ∧ isMessageSuccessful log m.id = true) →
      syncPlanWithProgress now log msgs
        = Except.ok (msgs.map fun m =>
            { m with status := MsgStatus.sent, errorMessage := none,
                     sentAt := some now }) := by
  intro msgs
  induction msgs with
  | nil => intro _; rfl
  | cons m rest ih =>
      intro h
      have hm := h m (List.mem_cons_self m rest)
      have hr := ih (fun m1 hm1 => h m1 (List.mem_cons_of_mem m hm1))
      simp [syncPlanWithProgress, syncMessage_sent_eq hm.1 hm.2, hr]

/-- Helper: an all-success run over an all-pending selection appends exactly
one sent entry per message, in order, and bumps the rate counter once per
message. -/
lemma processLoop_success_eq (now : Nat) (f : Nat → Nat) :
    ∀ (msgs : List WMessage) (res : RunResult) (tr : TrackerState) (rl : Nat),
      (∀ m ∈ msgs, m.status = MsgStatus.pending) →
      ∃ res1,
        processLoop now false (fun i => SendOutcome.success (f i)) msgs res tr rl
          = Except.ok (res1,
              { records := tr.records
                  ++ msgs.map (fun m => sentRecordOf now m (f m.id)),
                summary := applyRecords
                  (msgs.map fun m => sentRecordOf now m (f m.id)) tr.summary },
              rl + msgs.length)
        ∧ res1.processedMessages = res.processedMessages + msgs.length := by
  intro msgs
  induction msgs with
  | nil =>
      intro res tr rl _
      exact ⟨res, by simp [processLoop, applyRecords], by simp⟩
  | cons m rest ih =>
      intro res tr rl h
      have hm := h m (List.mem_cons_self m rest)
      have heq := @processOne_success_eq now m (Or.inl hm) (f m.id) res tr rl
      obtain ⟨res1, hrest, hcnt⟩ := ih
        { res with processedMessages := res.processedMessages + 1,
                   successfulMessages := res.successfulMessages + 1 }
        { records := tr.records ++ [sentRecordOf now m (f m.id)],
          summary := tr.summary.updateFromRecord (sentRecordOf now m (f m.id)) }
        (rl + 1)
        (fun m1 hm1 => h m1 (List.mem_cons_of_mem m hm1))
      refine ⟨res1, ?_, ?_⟩
      · simp only [processLoop]
        rw [heq]
        dsimp only
        rw [hrest]
        simp only [Except.ok.injEq, Prod.mk.injEq, TrackerState.mk.injEq,
          List.map_cons, applyRecords, List.foldl_cons, List.append_assoc,
          List.singleton_append, List.length_cons, true_and, and_true]
        omega
      · rw [hcnt]
        simp only [List.length_cons]
        omega

/-- Tracker state after a fully successful first run: one sent entry per
plan message, in plan order, folded into the summary from a fresh one. -/
def trOne (now : Nat) (f : Nat → Nat) (msgs : List WMessage) : TrackerState :=
  { records := msgs.map fun m => sentRecordOf now m (f m.id)
    summary := applyRecords (msgs.map fun m => sentRecordOf now m (f m.id))
                 (ProgressSummary.create msgs.length) }

/-- Helper: the first run of an all-pending plan with an all-success channel
produces exactly the `trOne` ledger — `msgs.length` sent entries. -/
lemma run1_eq (now : Nat) (f : Nat → Nat) (rl0 : Nat) (msgs : List WMessage)
    (hpend : ∀ m ∈ msgs, m.status = MsgStatus.pending) :
    ∃ res1,
      executeImport now false false (fun i => SendOutcome.success (f i)) msgs
          { records := [], summary := ProgressSummary.create msgs.length } rl0
        = Except.ok (res1, trOne now f msgs, rl0 + msgs.length) := by
  cases msgs with
  | nil => exact ⟨{ status := RunStatus.completed, totalMessages := 0 }, rfl⟩
  | cons m0 rest =>
      have htp := getMessagesToProcess_false_pending hpend
      obtain ⟨res1, hloop, -⟩ := processLoop_success_eq now f (m0 :: rest)
        { status := RunStatus.running, totalMessages := (m0 :: rest).length }
        { records := [], summary := ProgressSummary.create (m0 :: rest).length }
        rl0 hpend
      refine ⟨if res1.processedMessages = res1.totalMessages then
          (if res1.failedMessages = 0 then { res1 with status := RunStatus.completed }
           else { res1 with status := RunStatus.completedWithErrors })
        else res1, ?_⟩
      unfold executeImport
      dsimp only
      rw [htp, if_neg (by simp)]
      unfold processMessages
      dsimp only
      rw [hloop]
      rfl

/-- Helper: a resumed run against the `trOne` ledger syncs every message to
`sent`, selects nothing, and appends no new ledger entry. -/
lemma run2_eq (now : Nat) (f : Nat → Nat) (opt : Bool) (rl1 : Nat)
    (msgs : List WMessage)
    (hpend : ∀ m ∈ msgs, m.status = MsgStatus.pending) :
    resumedExecute now false opt (fun i => SendOutcome.success (f i)) msgs
        (trOne now f msgs) rl1
      = Except.ok ({ status := RunStatus.completed, totalMessages := 0 },
          trOne now f msgs, rl1) := by
  have hsentlog : ∀ r ∈ (trOne now f msgs).records, r.status = RecStatus.sent := by
    intro r hr
    simp only [trOne] at hr
    obtain ⟨m, hmmem, rfl⟩ := List.mem_map.mp hr
    rfl
  have hsync_all : ∀ m ∈ msgs,
      m.status = MsgStatus.pending
      ∧ isMessageSuccessful (trOne now f msgs).records m.id = true := by
    intro m hm
    refine ⟨hpend m hm, isMessageSuccessful_all_sent hsentlog ?_⟩
    refine ⟨sentRecordOf now m (f m.id), ?_, rfl⟩
    simp only [trOne]
    exact List.mem_map_of_mem _ hm
  have hsync := @syncPlan_all_sent_eq now (trOne now f msgs).records msgs hsync_all
  unfold resumedExecute
  rw [hsync]
  dsimp only
  cases msgs with
  | nil => cases opt <;> rfl
  | cons m0 rest =>
      have hproc : (trOne now f (m0 :: rest)).summary.processedMessages
          = (m0 :: rest).length := by
        simp only [trOne]
        rw [applyRecords_processed_create]
        simp
      have hsr : (opt
          || decide (0 < (trOne now f (m0 :: rest)).summary.processedMessages)) = true := by
        rw [hproc]
        simp
      rw [hsr]
      unfold executeImport
      dsimp only
      unfold getMessagesToProcess
      rw [if_pos rfl]
      have hfil : (((m0 :: rest).map fun m =>
            { m with status := MsgStatus.sent, errorMessage := none,
                     sentAt := some now }).filter
          fun m => decide (m.status = MsgStatus.pending)) = [] := by
        rw [List.filter_eq_nil_iff]
        intro a ha
        obtain ⟨m, -, rfl⟩ := List.mem_map.mp ha
        simp
      rw [hfil]
      rfl

/-- Claim C1 — idempotent resume.  First conjunct: after syncing a plan with
any ledger, every plan message whose latest ledger entry is `sent` ends with
status `sent` and is excluded from the set of messages the resumed executor
processes (`getUnprocessedMessages` keeps only `pending`).  Second conjunct:
running a fresh all-pending plan to completion over an error-free channel
and then re-running the executor against the resulting ledger yields exactly
`totalJobs` sent ledger entries — the second run re-attempts nothing and
appends nothing. -/
theorem c1_idempotent_resume :
    (∀ (now : Nat) (log : List ProgressRecord) (msgs msgs1 : List WMessage),
        syncPlanWithProgress now log msgs = Except.ok msgs1 →
        ∀ m1 ∈ msgs1, isMessageSuccessful log m1.id = true →
          m1 ∉ getMessagesToProcess true msgs1)
    ∧ ∀ (now : Nat) (f : Nat → Nat) (msgs : List WMessage) (opt : Bool) (rl0 : Nat),
        (∀ m ∈ msgs, m.status = MsgStatus.pending) →
        ∃ res1 tr1 rl1 res2 tr2 rl2,
          executeImport now false false (fun i => SendOutcome.success (f i)) msgs
              { records := [], summary := ProgressSummary.create msgs.length } rl0
            = Except.ok (res1, tr1, rl1)
          ∧ resumedExecute now false opt (fun i => SendOutcome.success (f i)) msgs
              tr1 rl1
            = Except.ok (res2, tr2, rl2)
          ∧ tr2.records.length = msgs.length
          ∧ ∀ r ∈ tr2.records, r.status = RecStatus.sent := by
  constructor
  · intro now log msgs msgs1 hsync m1 hm1 hsucc
    obtain ⟨m, hmm, hs⟩ := syncPlan_mem hsync m1 hm1
    have hc := syncMessage_cases hs
    rw [hc.1] at hsucc
    have hstat := hc.2 hsucc
    intro hcontra
    unfold getMessagesToProcess at hcontra
    rw [if_pos rfl] at hcontra
    have hp := (List.mem_filter.mp hcontra).2
    rw [hstat] at hp
    simp at hp
  · intro now f msgs opt rl0 hpend
    obtain ⟨res1, hrun1⟩ := run1_eq now f rl0 msgs hpend
    refine ⟨res1, trOne now f msgs, rl0 + msgs.length,
      { status := RunStatus.completed, totalMessages := 0 }, trOne now f msgs,
      rl0 + msgs.length, hrun1,
      run2_eq now f opt (rl0 + msgs.length) msgs hpend, ?_, ?_⟩
    · simp [trOne]
    · intro r hr
      simp only [trOne] at hr
      obtain ⟨m, -, rfl⟩ := List.mem_map.mp hr
      rfl

/-- One-message plan for the C1 witness. -/
def c1Msg : WMessage :=
  { id := 1, telegramId := 1, status := MsgStatus.pending, errorMessage := none,
    sentAt := none }

/-- The C1 witness message after syncing against a sent ledger entry. -/
def c1MsgSent : WMessage :=
  { id := 1, telegramId := 1, status := MsgStatus.sent, errorMessage := none,
    sentAt := some 0 }

/-- One-entry sent ledger for the C1 witness. -/
def c1Log : List ProgressRecord :=
  [{ messageId := 1, telegramId := 1, status := RecStatus.sent, timestamp := 0,
     errorMessage := none, retryCount := 0, sentMessageId := some 7 }]

/-- Channel of the C1 witness. -/
def c1Chan : Nat → Nat := fun i => 100 + i

/-- Witness for C1 at a concrete one-message plan: the synced sent message
is excluded from processing, and the two-run scenario yields one sent entry. -/
theorem c1_witness :
    (syncPlanWithProgress 0 c1Log [c1Msg] = Except.ok [c1MsgSent]
      ∧ isMessageSuccessful c1Log c1MsgSent.id = true
      ∧ c1MsgSent ∉ getMessagesToProcess true [c1MsgSent])
    ∧ ((∀ m ∈ [c1Msg], m.status = MsgStatus.pending)
      ∧ ∃ res1 tr1 rl1 res2 tr2 rl2,
          executeImport 0 false false (fun i => SendOutcome.success (c1Chan i)) [c1Msg]
              { records := [], summary := ProgressSummary.create [c1Msg].length } 0
            = Except.ok (res1, tr1, rl1)
          ∧ resumedExecute 0 false false (fun i => SendOutcome.success (c1Chan i))
              [c1Msg] tr1 rl1
            = Except.ok (res2, tr2, rl2)
          ∧ tr2.records.length = [c1Msg].length
          ∧ ∀ r ∈ tr2.records, r.status = RecStatus.sent) :=
  ⟨⟨rfl, rfl,
    c1_idempotent_resume.1 0 c1Log [c1Msg] [c1MsgSent] rfl c1MsgSent (by simp) rfl⟩,
   ⟨by decide, c1_idempotent_resume.2 0 c1Chan [c1Msg] false 0 (by decide)⟩⟩

/-- Helper: every attempt starts at least `minDelay` after the last
successful send — the wait `getRequiredWaitTime` plus the nonnegative random
delay always restores the floor. -/
lemma paceStep_attempt_lb (cfg : SleepRange) (a : AttemptTiming) (s : PaceState)
    (h : s.rl.lastMessageTime ≤ s.now) :
    s.rl.lastMessageTime + cfg.min * 1000 ≤ (paceStep cfg a s).2 := by
  unfold paceStep getRequiredWaitTime
  dsimp only
  have h1 : ((cfg.min : ℤ) * 1000) - ((s.now : ℤ) - (s.rl.lastMessageTime : ℤ))
      ≤ max 0 (((cfg.min : ℤ) * 1000) - ((s.now : ℤ) - (s.rl.lastMessageTime : ℤ))) :=
    le_max_right _ _
  have h2 : (((max 0 (((cfg.min : ℤ) * 1000)
        - ((s.now : ℤ) - (s.rl.lastMessageTime : ℤ)))).toNat : ℤ))
      = max 0 (((cfg.min : ℤ) * 1000) - ((s.now : ℤ) - (s.rl.lastMessageTime : ℤ))) :=
    Int.toNat_of_nonneg (le_max_left _ _)
  omega

/-- Helper: state facts of one timing step — the clock only moves forward,
the last-send stamp only moves forward and only on success, and the attempt
happens no later than the step's finish time. -/
lemma paceStep_facts (cfg : SleepRange) (a : AttemptTiming) (s : PaceState)
    (h : s.rl.lastMessageTime ≤ s.now) :
    (paceStep cfg a s).1.rl.lastMessageTime ≤ (paceStep cfg a s).1.now
    ∧ s.rl.lastMessageTime ≤ (paceStep cfg a s).1.rl.lastMessageTime
    ∧ (paceStep cfg a s).2 ≤ (paceStep cfg a s).1.now
    ∧ (a.success = true →
        (paceStep cfg a s).2 ≤ (paceStep cfg a s).1.rl.lastMessageTime) := by
  unfold paceStep updateRateLimit
  dsimp only
  cases hsucc : a.success <;> simp [hsucc] <;> omega

/-- Helper: every successful attempt time of a run lies at least `minDelay`
past the last-send stamp the run started from. -/
lemma paceRun_lb (cfg : SleepRange) :
    ∀ (sched : List AttemptTiming) (s : PaceState),
      s.rl.lastMessageTime ≤ s.now →
      ∀ t ∈ paceRun cfg sched s, s.rl.lastMessageTime + cfg.min * 1000 ≤ t := by
  intro sched
  induction sched with
  | nil => intro s h t ht; simp [paceRun] at ht
  | cons a rest ih =>
      intro s h t ht
      have hf := paceStep_facts cfg a s h
      have hlb := paceStep_attempt_lb cfg a s h
      simp only [paceRun] at ht
      cases hsucc : a.success with
      | false =>
          rw [hsucc] at ht
          simp only [Bool.false_eq_true, if_false] at ht
          have := ih (paceStep cfg a s).1 hf.1 t ht
          have h2 := hf.2.1
          omega
      | true =>
          rw [hsucc] at ht
          simp only [if_true] at ht
          rcases List.mem_cons.mp ht with rfl | ht1
          · exact hlb
          · have := ih (paceStep cfg a s).1 hf.1 t ht1
            have h2 := hf.2.1
            omega

/-- Claim C8 — pacing floor: in the timing model of the executor's loop
(`paceStep` per iteration: sleep `getRequiredWaitTime`, sleep the random
delay, attempt, and stamp `updateRateLimit` only on success), the start
times of any two consecutive successful attempts are at least
`sleepRange.min` seconds (`min * 1000` ms) apart, for every schedule of
random delays and send durations and every starting state whose last-send
stamp is not in the future. -/
theorem c8_pacing_floor (cfg : SleepRange) (sched : List AttemptTiming)
    (s : PaceState) (h : s.rl.lastMessageTime ≤ s.now) :
    List.Chain' (fun t1 t2 => t1 + cfg.min * 1000 ≤ t2) (paceRun cfg sched s) := by
  induction sched generalizing s with
  | nil => simp [paceRun]
  | cons a rest ih =>
      have hf := paceStep_facts cfg a s h
      simp only [paceRun]
      cases hsucc : a.success with
      | false =>
          simp only [Bool.false_eq_true, if_false]
          exact ih (paceStep cfg a s).1 hf.1
      | true =>
          simp only [if_true]
          rw [List.chain'_cons']
          constructor
          · intro t2 ht2
            have hmem := List.mem_of_mem_head? ht2
            have hlb := paceRun_lb cfg rest (paceStep cfg a s).1 hf.1 t2 hmem
            have h4 := hf.2.2.2 hsucc
            omega
          · exact ih (paceStep cfg a s).1 hf.1

/-- Witness for C8 at a concrete schedule of two successful sends. -/
theorem c8_witness :
    ({ now := 0, rl := RateLimiter.init } : PaceState).rl.lastMessageTime
        ≤ ({ now := 0, rl := RateLimiter.init } : PaceState).now
    ∧ List.Chain'
        (fun t1 t2 => t1 + ({ min := 3, max := 10 } : SleepRange).min * 1000 ≤ t2)
        (paceRun { min := 3, max := 10 }
          [{ randomSleepSeconds := 5, sendDuration := 2, success := true },
           { randomSleepSeconds := 4, sendDuration := 1, success := true }]
          { now := 0, rl := RateLimiter.init }) :=
  ⟨Nat.le_refl 0,
   c8_pacing_floor { min := 3, max := 10 }
     [{ randomSleepSeconds := 5, sendDuration := 2, success := true },
      { randomSleepSeconds := 4, sendDuration := 1, success := true }]
     { now := 0, rl := RateLimiter.init } (Nat.le_refl 0)⟩
